import Mathlib

/-!
A shallow embedding of the `p-noun` web-component core (src/index.ts):
the static pronoun table and resolver functions, the reference registry
(`RefManager`) with its microtask-deferred notifications, and the
deduplicating, reference-counted remote gender cache (`GenderCache` with
`AbortControllerMux`), together with theorems settling the specification
claims about them.
-/

/-- One slot of an Entry: either a literal word-string, or one of the two
sentinel symbols `ORIGINAL` / `NAME` from the source. -/
inductive Slot where
  | lit (w : String)
  | original
  | name
deriving DecidableEq, BEq, Repr

/-- `Entry` — the ordered tuple of grammatical forms from the source
(subject, object, possessive-adjective, possessive-pronoun, reflexive).
Remote tuples may be shorter or longer, so a list models the JS tuple
(indexing past the end yields `none`, as JS yields `undefined`). -/
abbrev Entry := List Slot

/-- The `pronouns` table from the source, in source order. -/
def pronounTable : List (String × Entry) := [
  ("ae", [.lit "ae", .lit "aer", .lit "aer", .lit "aers", .lit "aerself"]),
  ("ey", [.lit "ey", .lit "em", .lit "eir", .lit "eirs", .lit "emself"]),
  ("fae", [.lit "fae", .lit "faer", .lit "faer", .lit "faers", .lit "faerself"]),
  ("he", [.lit "he", .lit "him", .lit "his", .lit "his", .lit "himself"]),
  ("it", [.lit "it", .lit "it", .lit "it", .lit "its", .lit "itself"]),
  ("ne", [.lit "ne", .lit "nem", .lit "nir", .lit "nirs", .lit "nemself"]),
  ("per", [.lit "per", .lit "per", .lit "pers", .lit "pers", .lit "perself"]),
  ("she", [.lit "she", .lit "her", .lit "her", .lit "hers", .lit "herself"]),
  ("sie", [.lit "sie", .lit "sir", .lit "hir", .lit "hirs", .lit "hirself"]),
  ("they", [.lit "they", .lit "them", .lit "their", .lit "theirs", .lit "themself"]),
  ("ve", [.lit "ve", .lit "ver", .lit "vis", .lit "vers", .lit "verself"]),
  ("xe", [.lit "xe", .lit "xem", .lit "xyr", .lit "xyrs", .lit "xemself"]),
  ("ze", [.lit "ze", .lit "hir", .lit "hir", .lit "hirs", .lit "hirself"]),
  ("ze2", [.lit "ze", .lit "zir", .lit "zir", .lit "zirs", .lit "zirself"]),
  ("zie", [.lit "zie", .lit "zim", .lit "zir", .lit "zirs", .lit "zirself"]),
  ("unknown", [.original, .original, .original, .original, .original]),
  ("any", [.original, .original, .original, .original, .original]),
  ("none", [.name, .name, .name, .name, .name])]

/-- The all-`ORIGINAL` sentinel Entry (value of `pronouns["unknown"]` and
`pronouns["any"]`). -/
def allOriginal : Entry := [.original, .original, .original, .original, .original]

/-- The all-`NAME` sentinel Entry (value of `pronouns["none"]`). -/
def allName : Entry := [.name, .name, .name, .name, .name]

/-- The `pronounDbMap` alias table from the source. -/
def pronounDbMap : List (String × String) := [
  ("unspecified", "unknown"),
  ("hh", "he"), ("hi", "he"), ("hs", "he"), ("ht", "he"),
  ("ih", "it"), ("ii", "it"), ("is", "it"), ("it", "it"),
  ("shh", "she"), ("sh", "she"), ("si", "she"), ("st", "she"),
  ("th", "they"), ("ti", "they"), ("ts", "they"), ("tt", "they"),
  ("any", "any"),
  ("other", "unknown"), ("ask", "unknown"), ("avoid", "none")]

/-- `lookupPronouns` from the source: consult the alias map first, then the
table directly. (In the source `mapped ? ... : ...` tests JS truthiness;
every alias value is a non-empty string, so truthiness coincides with
presence.) -/
def lookupPronouns (value : String) : Option Entry :=
  match pronounDbMap.lookup value with
  | some mapped => pronounTable.lookup mapped
  | none => pronounTable.lookup value

/-- `ENTRY_FORMATS` from the source. -/
def ENTRY_FORMATS : List String := ["s", "o", "pa", "pp", "r"]

/-- `PRONOUN_FORMATS` from the source. -/
def PRONOUN_FORMATS : List String := ["n", "np", "nr"] ++ ENTRY_FORMATS

/-- `PronounData` from the source: a display name plus an optional Entry. -/
structure PronounData where
  identity : String
  pronouns : Option Entry

/-- `getIdentityInForm` from the source: render the identity name in the
requested form (possessive and reflexive markers; default is the name
as-is). -/
def getIdentityInForm (form : String) (identity : String) : String :=
  if form = "np" ∨ form = "pa" ∨ form = "pp" then identity ++ "\x27s"
  else if form = "nr" ∨ form = "r" then identity ++ "\x27s self"
  else identity

/-- Models the JS test `/^\p\x7bLu\x7d/u.test(fallback)` — does the string
start with an uppercase letter (ASCII model of the Unicode category). -/
def startsUppercase (s : String) : Bool :=
  match s.toList with
  | [] => false
  | c :: _ => c.isUpper

/-- Models `p[0].toUpperCase() + p.substring(1)` from the source. On the
empty string, JS evaluates `undefined.toUpperCase()` and throws a
TypeError; the model returns `none` there. -/
def capitalizeFirst (p : String) : Option String :=
  match p.toList with
  | [] => none
  | c :: rest => some (String.mk (c.toUpper :: rest))

/-- `getPronounInForm` from the source. A `none` result models the JS
TypeError thrown by `capitalizeFirst` on an empty literal slot; every
other path returns a string. Indexing the Entry past its end (short
remote tuples) gives JS `undefined`, which falls through to `fallback`. -/
def getPronounInForm (form : String) (data : PronounData) (fallback : String) :
    Option String :=
  match data.pronouns with
  | some e =>
    match ENTRY_FORMATS.findIdx? (fun f => f == form) with
    | some formIndex =>
      match e.get? formIndex with
      | some (.lit p) =>
        if startsUppercase fallback then capitalizeFirst p else some p
      | some .original => some fallback
      | some .name => some (getIdentityInForm form data.identity)
      | none => some fallback
    | none => some fallback
  | none => some fallback

/-- `changeGender` from the source (named `resolveForm` in the spec): identity
forms bypass pronoun data; everything else goes through
`getPronounInForm`. -/
def changeGender (form : String) (data : PronounData) (fallback : String) :
    Option String :=
  if form = "n" ∨ form = "np" ∨ form = "nr" then
    some (getIdentityInForm form data.identity)
  else getPronounInForm form data fallback

/-- Models `p.indexOf(pronoun)` on an Entry tuple: the index of the first
slot that is `===` the sample string (`none` for JS `-1`; a symbol slot is
never `===` a string). -/
def entryIndexOf (e : Entry) (w : String) : Option Nat :=
  e.findIdx? (fun s => s == Slot.lit w)

/-- Models JS `sample.toLowerCase()` characterwise (ASCII model of the
Unicode mapping). -/
def toLowerStr (s : String) : String := String.mk (s.toList.map Char.toLower)

/-- `inferForm` from the source: lower-case the sample, collect for each
table Entry the index of its first matching slot, and answer only when
exactly one Entry matched. -/
def inferForm (sample : String) : Option String :=
  let w := toLowerStr sample
  let options :=
    ((pronounTable.map Prod.snd).map (fun p => entryIndexOf p w)).filterMap id
  if options.length = 1 then ENTRY_FORMATS.get? (options.headD 0) else none

/-- The table Entries whose slots contain the sample word (used to state
what `inferForm` actually decides on). -/
def entriesContaining (w : String) : List Entry :=
  (pronounTable.map Prod.snd).filter (fun e => (entryIndexOf e w).isSome)

/-- The total number of form-slots across the whole table holding the
given literal word (what the spec calls "distinct form-slots across the whole
static pronoun table combined"). -/
def slotOccurrences (w : String) : Nat :=
  ((pronounTable.map Prod.snd).map (fun e => e.countP (fun s => s == Slot.lit w))).sum

/-- The `"she"` Entry of the table. -/
def sheEntry : Entry := [.lit "she", .lit "her", .lit "her", .lit "hers", .lit "herself"]

/-- `Gender` from the source: the result of a remote fetch. -/
structure Gender where
  pronouns : Entry
deriving DecidableEq

/-- The index of the first `:` in a string (JS `src.indexOf(":")`, with
`none` for `-1`). -/
def colonIndex (s : String) : Option Nat :=
  s.toList.findIdx? (fun c => c == ':')

/-- The observable actions `PIdElement._loadGender` performs, in order. -/
inductive LoadEffect where
  | cancelPrev
  | setLoaded (e : Entry)
  | emitUpdated
  | emitError (msg : String)
  | startFetch (src : String)
deriving DecidableEq

/-- `PIdElement._loadGender` from the source, as the ordered list of its
observable actions: cancel any previous in-flight load; with no colon,
look the source up as a constant gender (falling back to
`pronouns["unknown"]`) and announce it; with a colon, emit a
configuration error when the provider segment is empty — and then (the
source has no early return) start the cache fetch regardless. -/
def loadGender (src : String) : List LoadEffect :=
  [.cancelPrev] ++
    match colonIndex src with
    | none =>
      [.setLoaded ((lookupPronouns src).getD allOriginal), .emitUpdated]
    | some ci =>
      let provider := src.toList.take ci
      (if provider.isEmpty then
        [.emitError ("Unknown gender source \x27" ++ src ++ "\x27.")]
      else []) ++ [.startFetch src]

/-- `AbortControllerMux` from the source: the caller count (starting at 1)
and how many times the underlying `AbortController.abort` has actually
run. -/
structure Mux where
  count : Int
  abortCalls : Nat
deriving DecidableEq

/-- A fresh `AbortControllerMux` (`_count = 1`). -/
def Mux.new : Mux := { count := 1, abortCalls := 0 }

/-- `AbortControllerMux.abort`: decrement the count and forward to the
underlying abort only at (or below) zero. -/
def Mux.abortOp (m : Mux) : Mux :=
  let c := m.count - 1
  if c ≤ 0 then { count := c, abortCalls := m.abortCalls + 1 }
  else { count := c, abortCalls := m.abortCalls }

/-- `AbortControllerMux.bump`. -/
def Mux.bump (m : Mux) : Mux := { m with count := m.count + 1 }

deriving instance DecidableEq for Except

/-- One entry of the `genderRequests` map: the shared transport promise
(`settled = none` while in flight, `some r` once settled with outcome
`r`) and the associated mux. -/
structure ReqState where
  mux : Mux
  settled : Option (Except String Gender)
deriving DecidableEq

/-- How the awaited promise of one `GenderCache.fetch` caller stands:
still pending, rejected by its own abort race, or settled with the shared
transport outcome. -/
inductive CallerStatus where
  | pending
  | gotAborted
  | gotResult (r : Except String Gender)
deriving DecidableEq

/-- Is the awaited promise of the caller still pending? -/
def CallerStatus.isPending : CallerStatus → Bool
  | .pending => true
  | _ => false

/-- One caller of `GenderCache.fetch`: which request map entry it awaits,
whether its abort signal was wired to the mux (the source wires only the
caller that creates the entry), whether its signal has fired, and its
promise status. -/
structure CallerState where
  uri : String
  wired : Bool
  fired : Bool
  status : CallerStatus
deriving DecidableEq

/-- The `GenderCache` state: the `genderRequests` map (entries are never
removed by the source) plus all callers so far. The number of transport
requests ever started equals `requests.length`, since exactly the
map-miss branch of `fetch` starts one. -/
structure CacheState where
  requests : List (String × ReqState)
  callers : List CallerState
deriving DecidableEq

/-- The empty cache. -/
def CacheState.empty : CacheState := { requests := [], callers := [] }

/-- Update the request map entry of a uri in place. -/
def updateReq (m : List (String × ReqState)) (uri : String)
    (f : ReqState → ReqState) : List (String × ReqState) :=
  m.map (fun p => if p.1 == uri then (p.1, f p.2) else p)

/-- `GenderCache.fetch` from the source. On a map hit, bump the mux and
hand the caller the existing promise — the source attaches no listener to
the signal of this caller and does not race it against an abort promise (a
promise that is already settled delivers its outcome to the new caller
at once). On a miss, create a mux, wire the signal of this caller to it, start
the transport and store the entry. -/
def GenderCache.fetch (st : CacheState) (uri : String) : CacheState :=
  match st.requests.lookup uri with
  | some req =>
    let status := match req.settled with
      | some r => CallerStatus.gotResult r
      | none => CallerStatus.pending
    { st with
      requests := updateReq st.requests uri (fun q => { q with mux := q.mux.bump }),
      callers := st.callers ++ [⟨uri, false, false, status⟩] }
  | none =>
    { st with
      requests := st.requests ++ [(uri, ⟨Mux.new, none⟩)],
      callers := st.callers ++ [⟨uri, true, false, .pending⟩] }

/-- The own `AbortSignal` of a caller fires (`_cancelGender` in the
binding layer). A signal fires at most once. If the caller was wired
(it created the entry), its abort listener runs: `abortMux.abort()` on
the shared mux, and the abort promise of its `Promise.race` rejects —
which settles the awaited promise of the caller only if it was still pending.
An unwired caller (a joiner) has no listener: nothing at all happens. -/
def fireSignal (st : CacheState) (ci : Nat) : CacheState :=
  match st.callers.get? ci with
  | none => st
  | some c =>
    if c.fired then st
    else if c.wired then
      let status := if c.status.isPending then CallerStatus.gotAborted else c.status
      { st with
        requests := updateReq st.requests c.uri (fun q => { q with mux := q.mux.abortOp }),
        callers := st.callers.set ci ⟨c.uri, c.wired, true, status⟩ }
    else
      { st with callers := st.callers.set ci ⟨c.uri, c.wired, true, c.status⟩ }

/-- The shared transport promise for a uri settles with outcome `r`
(resolution on HTTP success with a recognized body, rejection otherwise).
Every caller of that uri whose awaited promise was still pending receives
the outcome; the map entry records it and is never removed. -/
def settleTransport (st : CacheState) (uri : String) (r : Except String Gender) :
    CacheState :=
  match st.requests.lookup uri with
  | some req =>
    if req.settled.isNone then
      { st with
        requests := updateReq st.requests uri (fun q => { q with settled := some r }),
        callers := st.callers.map (fun c =>
          if c.uri == uri && c.status.isPending then { c with status := .gotResult r }
          else c) }
    else st
  | none => st

/-- Registered entities (`PIdElement`s) are identified by an id. -/
abbrev Elem := Nat

/-- Listener callbacks (`NotifyFn`s) are identified by an id; invoking one
is modelled as appending the invocation to a delivery log. -/
abbrev ListenerId := Nat

/-- One listener invocation `fn(oldElement, newElement)`. -/
structure Notif where
  old : Option Elem
  new : Option Elem
deriving DecidableEq

/-- A queued microtask of `RefManager`: either `notify(ref, old, new)` —
which looks the listeners of `ref` up at delivery time — or the direct
replay `fn(undefined, el)` queued by `on`, which calls one captured
listener. -/
inductive RTask where
  | notifyTask (ref : String) (old : Option Elem) (new : Option Elem)
  | direct (fn : ListenerId) (old : Option Elem) (new : Option Elem)
deriving DecidableEq

/-- The `RefManager` state plus its pending microtask queue (FIFO) and the
log of listener invocations delivered so far. JS `Set`s keep insertion
order, so both maps hold ordered lists without duplicates. -/
structure RegState where
  refMap : List (String × List Elem)
  listenerMap : List (String × List ListenerId)
  tasks : List RTask
  delivered : List (ListenerId × Notif)
deriving DecidableEq

/-- The registry of a fresh document. -/
def RegState.empty : RegState := ⟨[], [], [], []⟩

/-- Replace the value of a key in an association list, in place. -/
def setAssoc {β : Type} (m : List (String × β)) (k : String) (v : β) :
    List (String × β) :=
  m.map (fun p => if p.1 == k then (p.1, v) else p)

/-- Drop a key from an association list. -/
def removeAssoc {β : Type} (m : List (String × β)) (k : String) :
    List (String × β) :=
  m.filter (fun p => p.1 != k)

/-- `RefManager.get`: the first element, in insertion order, registered
under the key. -/
def RegState.get (st : RegState) (ref : String) : Option Elem :=
  (st.refMap.lookup ref).bind List.head?

/-- `RefManager.add`: join the set of the key (no notification), or create the
set and queue a `notify(ref, undefined, el)` microtask. -/
def RegState.add (st : RegState) (ref : String) (el : Elem) : RegState :=
  match st.refMap.lookup ref with
  | some refs =>
    { st with refMap := setAssoc st.refMap ref (if el ∈ refs then refs else refs ++ [el]) }
  | none =>
    { st with refMap := st.refMap ++ [(ref, [el])],
              tasks := st.tasks ++ [.notifyTask ref none (some el)] }

/-- `RefManager.remove`: drop the element; when it was the active holder,
compute the new holder after the deletion and queue
`notify(ref, el, newEl)`. -/
def RegState.remove (st : RegState) (ref : String) (el : Elem) : RegState :=
  match st.refMap.lookup ref with
  | none => st
  | some refs =>
    let first := st.get ref = some el
    let refs1 := refs.erase el
    let refMap1 := if refs1.isEmpty then removeAssoc st.refMap ref
                   else setAssoc st.refMap ref refs1
    let st1 := { st with refMap := refMap1 }
    if first then
      { st1 with tasks := st1.tasks ++ [.notifyTask ref (some el) (st1.get ref)] }
    else st1

/-- `RefManager.on`: register the listener and queue the asynchronous
replay `fn(undefined, currentHolder)`, with the holder captured now. -/
def RegState.on (st : RegState) (ref : String) (fn : ListenerId) : RegState :=
  let lm := match st.listenerMap.lookup ref with
    | some ls => setAssoc st.listenerMap ref (if fn ∈ ls then ls else ls ++ [fn])
    | none => st.listenerMap ++ [(ref, [fn])]
  { st with listenerMap := lm, tasks := st.tasks ++ [.direct fn none (st.get ref)] }

/-- `RefManager.off`: drop the listener; no notification. -/
def RegState.off (st : RegState) (ref : String) (fn : ListenerId) : RegState :=
  match st.listenerMap.lookup ref with
  | none => st
  | some ls =>
    let ls1 := ls.erase fn
    { st with listenerMap := if ls1.isEmpty then removeAssoc st.listenerMap ref
                             else setAssoc st.listenerMap ref ls1 }

/-- Run one queued microtask: `notify` delivers to every current listener
of the key in registration order; a replay calls its captured listener
directly. -/
def runTask (st : RegState) (t : RTask) : RegState :=
  match t with
  | .direct fn o n => { st with delivered := st.delivered ++ [(fn, ⟨o, n⟩)] }
  | .notifyTask ref o n =>
    match st.listenerMap.lookup ref with
    | some ls => { st with delivered := st.delivered ++ ls.map (fun fn => (fn, ⟨o, n⟩)) }
    | none => st

/-- Drain the microtask queue in FIFO order (our modelled listeners only
log their invocation, so no new tasks arise during the drain). -/
def RegState.drain (st : RegState) : RegState :=
  st.tasks.foldl runTask { st with tasks := [] }

/-- A slot is harmless for `capitalizeFirst`: sentinels always, a literal
only when its word is non-empty (the amended totality condition of the
resolver). -/
def slotNonempty : Slot → Bool
  | .lit w => !w.toList.isEmpty
  | .original => true
  | .name => true

/-- Scenario: two concurrent `GenderCache.fetch` calls for one source, the
second arriving while the transport of the first is still in flight. -/
def twoFetches (uri : String) : CacheState :=
  GenderCache.fetch (GenderCache.fetch CacheState.empty uri) uri

/-- Scenario: both of the two concurrent callers fire their abort signals
before the transport settles. -/
def twoFetchesBothCancel (uri : String) : CacheState :=
  fireSignal (fireSignal (twoFetches uri) 0) 1

/-- Scenario: a single caller fetches and fires its abort signal before
the transport settles. -/
def oneFetchCancel (uri : String) : CacheState :=
  fireSignal (GenderCache.fetch CacheState.empty uri) 0

/-- Scenario: a fetch for a source completes with outcome `r`, then a
fresh `GenderCache.fetch` call arrives for the same source. -/
def completedRefetch (uri : String) (r : Except String Gender) : CacheState :=
  GenderCache.fetch
    (settleTransport (GenderCache.fetch CacheState.empty uri) uri r) uri

/-- Scenario: a listener subscribes to a key of an empty registry and the
replay notification is drained. -/
def regSubscribed (k : String) (L : ListenerId) : RegState :=
  RegState.drain (RegState.on RegState.empty k L)

/-- Scenario: after the subscription, the synchronous batch `add(k, A)`,
`add(k, B)`, `remove(k, A)` runs and the microtask queue is drained. -/
def regAddAddRemove (k : String) (L : ListenerId) (A B : Elem) : RegState :=
  RegState.drain
    (RegState.remove (RegState.add (RegState.add (regSubscribed k L) k A) k B) k A)

example : inferForm "hir" = none := by decide
example : inferForm "she" = some "s" := by decide
example : lookupPronouns "hh" = pronounTable.lookup "he" := by decide
example : lookupPronouns "avoid" = pronounTable.lookup "none" := by decide
example : lookupPronouns "bogus" = none := by decide
example : changeGender "s" ⟨"X", some sheEntry⟩ "He" = some "She" := by decide

/-- Helper: a found index of `findIdx?` started at `j` is below `j` plus
the list length. -/
theorem findIdx?_lt_add_length {α : Type} {p : α → Bool} {l : List α} :
    ∀ {j i : Nat}, List.findIdx? p l j = some i → i < j + l.length := by
  induction l with
  | nil => intro j i h; simp [List.findIdx?_nil] at h
  | cons x xs ih =>
    intro j i h
    rw [List.findIdx?_cons] at h
    by_cases hp : p x = true
    · rw [if_pos hp] at h
      cases h
      simp only [List.length_cons]
      omega
    · rw [if_neg hp] at h
      have := ih h
      simp only [List.length_cons]
      omega

/-- Helper: a found index of `findIdx?` is below the list length. -/
theorem findIdx?_lt_length {α : Type} {p : α → Bool} {l : List α} {i : Nat}
    (h : l.findIdx? p = some i) : i < l.length := by
  have := findIdx?_lt_add_length (p := p) (l := l) (j := 0) (i := i) h
  omega

/-- Helper: `filterMap` into `Nat` equals mapping the extracted value over
the filtered list. -/
theorem filterMap_eq_map_getD {α : Type} (f : α → Option Nat) (l : List α) :
    l.filterMap f
      = (l.filter (fun a => (f a).isSome)).map (fun a => (f a).getD 0) := by
  induction l with
  | nil => rfl
  | cons a t ih =>
    cases h : f a <;> simp [List.filterMap_cons, List.filter_cons, h, ih]

/-- Helper: the option list built inside `inferForm` is the per-Entry
first-match index mapped over the Entries that contain the sample. -/
theorem inferForm_options_eq (w : String) :
    ((pronounTable.map Prod.snd).map (fun p => entryIndexOf p w)).filterMap id
      = (entriesContaining w).map (fun e => (entryIndexOf e w).getD 0) := by
  rw [List.filterMap_map]
  have : (id ∘ fun p => entryIndexOf p w) = fun p => entryIndexOf p w := rfl
  rw [this, filterMap_eq_map_getD]
  rfl

/-- Helper: every Entry of the static table has exactly five slots. -/
theorem pronounTable_entry_length :
    ∀ e ∈ pronounTable.map Prod.snd, List.length e = 5 := by
  intro e he
  fin_cases he <;> rfl

/-- C8: sentinel slots resolve as specified — with the all-`ORIGINAL`
`"unknown"`/`"any"` Entry, every grammatical form returns the fallback
unchanged for every identity and fallback string; with the all-`NAME`
`"none"` Entry, form `"pa"` for identity `"Sam"` and fallback `"his"`
returns the name with the possessive marker appended. -/
theorem C8_sentinel_resolution :
    pronounTable.lookup "unknown" = some allOriginal ∧
    pronounTable.lookup "any" = some allOriginal ∧
    pronounTable.lookup "none" = some allName ∧
    (∀ form, form ∈ ENTRY_FORMATS → ∀ (ident fb : String),
      changeGender form ⟨ident, some allOriginal⟩ fb = some fb) ∧
    changeGender "pa" ⟨"Sam", some allName⟩ "his" = some "Sam\x27s" := by
  refine ⟨by decide, by decide, by decide, ?_, by decide⟩
  intro form hform ident fb
  simp only [ENTRY_FORMATS, List.mem_cons, List.not_mem_nil, or_false] at hform
  rcases hform with rfl | rfl | rfl | rfl | rfl <;> rfl

/-- Witness for C8 at a concrete grammatical form and fallback. -/
theorem C8_sentinel_resolution_witness :
    changeGender "s" ⟨"Sam", some allOriginal⟩ "he" = some "he" :=
  C8_sentinel_resolution.2.2.2.1 "s" (by decide) "Sam" "he"

/-- C7 counterexample: the resolution engine is not total on arbitrary
literal strings — a remote tuple may carry an empty-string slot, and with
a capitalized fallback the source evaluates `undefined.toUpperCase()` (a
TypeError, modelled as `none`), instead of returning a defined string. -/
theorem C7_counterexample :
    changeGender "s" ⟨"X", some [Slot.lit "", Slot.lit ""]⟩ "She" = none := by
  decide

/-- C7 as amended: the resolution-engine functions are total — return a
defined string — for every form code, fallback, and pronoun data whose
literal slots are all non-empty (which includes every Entry of the static
table; only an empty-string literal from a remote tuple, met under a
fallback starting with an uppercase letter, escapes this). -/
theorem C7_amended_total_on_nonempty_slots (form : String) (data : PronounData)
    (fallback : String) (h : (data.pronouns.getD []).all slotNonempty = true) :
    (changeGender form data fallback).isSome = true := by
  unfold changeGender
  split
  · rfl
  · cases hp : data.pronouns with
    | none => simp [getPronounInForm, hp]
    | some e =>
      cases hf : ENTRY_FORMATS.findIdx? (fun f => f == form) with
      | none => simp [getPronounInForm, hp, hf]
      | some formIndex =>
        cases hg : e[formIndex]? with
        | none => simp [getPronounInForm, hp, hf, hg]
        | some s =>
          cases s with
          | original => simp [getPronounInForm, hp, hf, hg]
          | name => simp [getPronounInForm, hp, hf, hg]
          | lit p =>
            have hmem : Slot.lit p ∈ e := by
              obtain ⟨hlt, hval⟩ := List.getElem?_eq_some.mp hg
              exact hval ▸ List.getElem_mem hlt
            have he : e.all slotNonempty = true := by rw [hp] at h; exact h
            have hall : slotNonempty (Slot.lit p) = true :=
              List.all_eq_true.mp he _ hmem
            by_cases hu : startsUppercase fallback = true
            · cases hq : p.data with
              | nil => exact absurd hq (by simpa [slotNonempty] using hall)
              | cons c rest =>
                simp [getPronounInForm, hp, hf, hg, hu, capitalizeFirst, hq]
            · simp only [Bool.not_eq_true] at hu
              simp [getPronounInForm, hp, hf, hg, hu]

/-- Witness for the amended C7 theorem at a concrete remote-style tuple and
capitalized fallback. -/
theorem C7_amended_witness :
    ((some [Slot.lit "they", Slot.lit "them"] : Option Entry).getD []).all
        slotNonempty = true ∧
    (changeGender "s" ⟨"X", some [Slot.lit "they", Slot.lit "them"]⟩ "They").isSome
        = true :=
  ⟨by decide,
   C7_amended_total_on_nonempty_slots "s" ⟨"X", some [.lit "they", .lit "them"]⟩
     "They" (by decide)⟩

/-- C9: with an empty provider segment (a source starting with `:`), the
source emits the configuration error synchronously — but, lacking an
early return, it then still starts the transport fetch for that very
source: the claimed absence of a transport fetch fails. -/
theorem C9_empty_provider_still_fetches :
    loadGender ":x"
      = [.cancelPrev, .emitError "Unknown gender source \x27:x\x27.",
         .startFetch ":x"] := by
  decide

/-- C10: a colon-free source that resolves neither through the alias map
nor as a direct table key silently loads the all-`ORIGINAL` `"unknown"`
Entry — no error is emitted and no fetch is started — and that Entry is
exactly the `"unknown"` Entry of the table. -/
theorem C10_colonfree_unknown_fallback (src : String)
    (h1 : colonIndex src = none) (h2 : lookupPronouns src = none) :
    loadGender src = [.cancelPrev, .setLoaded allOriginal, .emitUpdated] ∧
    pronounTable.lookup "unknown" = some allOriginal := by
  refine ⟨?_, by decide⟩
  unfold loadGender
  rw [h1, h2]
  rfl

/-- Witness for C10 at the concrete source `"bogus"`. -/
theorem C10_colonfree_unknown_fallback_witness :
    colonIndex "bogus" = none ∧ lookupPronouns "bogus" = none ∧
    loadGender "bogus" = [.cancelPrev, .setLoaded allOriginal, .emitUpdated] :=
  ⟨by decide, by decide,
   (C10_colonfree_unknown_fallback "bogus" (by decide) (by decide)).1⟩

/-- C1: for every source identifier, a second `GenderCache.fetch` arriving
while the transport of the first is in flight joins the existing request —
exactly one transport request exists — and when the first caller then
cancels via its signal, the shared transport is not aborted (zero
underlying abort calls) while the second caller still receives the
result of the operation once it settles (the own promise of the first caller having
rejected on its cancellation). -/
theorem C1_dedup_and_safe_partial_cancel (uri : String) (r : Except String Gender) :
    (twoFetches uri).requests.length = 1 ∧
    (fireSignal (twoFetches uri) 0).requests.map (fun p => p.2.mux.abortCalls)
      = [0] ∧
    (settleTransport (fireSignal (twoFetches uri) 0) uri r).callers.map
        CallerState.status
      = [.gotAborted, .gotResult r] := by
  simp [twoFetches, GenderCache.fetch, fireSignal, settleTransport,
        CacheState.empty, updateReq, Mux.new, Mux.bump, Mux.abortOp,
        CallerStatus.isPending, List.lookup]

/-- C2: evaluation at the failing input of the claim. With two concurrent
callers for one source who both fire their abort signals before the
transport settles, the underlying transport is never aborted (zero abort
calls; the count is stuck at one because only the signal of the first caller is
wired to the mux) — whereas with a single caller the cancellation does
abort the transport exactly once. -/
theorem C2_all_cancel_fails_to_abort (uri : String) :
    (twoFetchesBothCancel uri).callers.map CallerState.fired = [true, true] ∧
    (twoFetchesBothCancel uri).requests.map (fun p => p.2.mux.abortCalls) = [0] ∧
    (twoFetchesBothCancel uri).requests.map (fun p => p.2.mux.count) = [1] ∧
    (oneFetchCancel uri).requests.map (fun p => p.2.mux.abortCalls) = [1] := by
  simp [twoFetchesBothCancel, twoFetches, oneFetchCancel, GenderCache.fetch,
        fireSignal, CacheState.empty, updateReq, Mux.new, Mux.bump,
        Mux.abortOp, CallerStatus.isPending, List.lookup]

/-- C3: evaluation at the failing input of the claim. A caller that joined an
already in-flight request and fires its own abort signal while the shared
operation is pending is NOT rejected: its promise stays pending (and the
shared mux count is untouched), and when the transport settles it receives
the shared outcome — contradicting the claimed immediate
aborted-kind rejection for joining callers. -/
theorem C3_joiner_cancel_is_ignored (uri : String) (r : Except String Gender) :
    (fireSignal (twoFetches uri) 1).callers.map CallerState.status
      = [.pending, .pending] ∧
    (fireSignal (twoFetches uri) 1).requests.map (fun p => p.2.mux.count) = [2] ∧
    (settleTransport (fireSignal (twoFetches uri) 1) uri r).callers.map
        CallerState.status
      = [.gotResult r, .gotResult r] := by
  simp [twoFetches, GenderCache.fetch, fireSignal, settleTransport,
        CacheState.empty, updateReq, Mux.new, Mux.bump, Mux.abortOp,
        CallerStatus.isPending, List.lookup]

/-- C4 counterexample: after a fetch for `"u"` has completed, a fresh
`GenderCache.fetch "u"` does NOT issue a new transport operation — the
request count stays at one (not the two the claim requires), because the
source never removes settled entries from `genderRequests`; the fresh
caller is served the completed result. -/
theorem C4_counterexample :
    (completedRefetch "u" (.ok ⟨allOriginal⟩)).requests.length = 1 ∧
    ¬(completedRefetch "u" (.ok ⟨allOriginal⟩)).requests.length = 2 ∧
    (completedRefetch "u" (.ok ⟨allOriginal⟩)).callers.map CallerState.status
      = [.gotResult (.ok ⟨allOriginal⟩), .gotResult (.ok ⟨allOriginal⟩)] :=
  ⟨rfl, by decide, rfl⟩

/-- C4 as amended: once a fetch for a source has completed (success or
failure), its entry remains in the request map, and a fresh call to
`GenderCache.fetch` for the same source reuses the promise of the completed
request — receiving its settled outcome — without issuing a new
underlying transport operation: the map deduplicates completed requests
as well as in-flight ones. -/
theorem C4_amended_completed_request_reused (uri : String) (r : Except String Gender) :
    (completedRefetch uri r).requests.length = 1 ∧
    (completedRefetch uri r).callers.map CallerState.status
      = [.gotResult r, .gotResult r] := by
  simp [completedRefetch, GenderCache.fetch, settleTransport,
        CacheState.empty, updateReq, Mux.new, Mux.bump, Mux.abortOp,
        CallerStatus.isPending, List.lookup]

/-- C5: with a listener already subscribed (and its replay already
delivered), the synchronous sequence `add(k, A)`, `add(k, B)`,
`remove(k, A)` delivers to that listener exactly the two active-holder
transitions `(absent → A)` then `(A → B)`, in that order — never
reordered, never coalesced, and never `(absent → B)`. -/
theorem C5_registry_ordered_transitions (k : String) (L : ListenerId)
    (A B : Elem) (h : A ≠ B) :
    (regSubscribed k L).delivered = [(L, ⟨none, none⟩)] ∧
    (regAddAddRemove k L A B).delivered
      = (regSubscribed k L).delivered
          ++ [(L, ⟨none, some A⟩), (L, ⟨some A, some B⟩)] := by
  constructor
  · simp [regSubscribed, RegState.drain, RegState.on, RegState.empty,
          RegState.get, runTask, List.lookup]
  · simp [regAddAddRemove, regSubscribed, RegState.drain, RegState.on,
          RegState.empty, RegState.add, RegState.remove, RegState.get,
          setAssoc, removeAssoc, runTask, List.lookup, h, Ne.symm h,
          List.erase_cons_head]

/-- Witness for C5 at a concrete key, listener and pair of elements. -/
theorem C5_registry_ordered_transitions_witness :
    (0 : Elem) ≠ (1 : Elem) ∧
    (regAddAddRemove "k" 7 0 1).delivered
      = (regSubscribed "k" 7).delivered
          ++ [(7, ⟨none, some 0⟩), (7, ⟨some 0, some 1⟩)] :=
  ⟨by decide, (C5_registry_ordered_transitions "k" 7 0 1 (by decide)).2⟩

/-- Helper: when exactly one table Entry contains the (lower-cased)
sample, `inferForm` answers with the form at the first matching
slot of that Entry. -/
theorem inferForm_eq_of_unique (w : String) (e : Entry)
    (he : entriesContaining (toLowerStr w) = [e]) :
    inferForm w
      = (entryIndexOf e (toLowerStr w)).bind (fun i => ENTRY_FORMATS.get? i) := by
  have hmem : e ∈ entriesContaining (toLowerStr w) := he ▸ List.mem_singleton_self e
  have hfil : e ∈ pronounTable.map Prod.snd ∧
      (entryIndexOf e (toLowerStr w)).isSome = true :=
    List.mem_filter.mp
      (show e ∈ List.filter (fun x => (entryIndexOf x (toLowerStr w)).isSome)
          (pronounTable.map Prod.snd) from hmem)
  obtain ⟨i, hi⟩ := Option.isSome_iff_exists.mp hfil.2
  simp only [inferForm]
  rw [inferForm_options_eq, he]
  simp [hi]

/-- Helper: in the unique-Entry case the answer of `inferForm` is never
`none`, since a found first-match index is inside the five format
codes. -/
theorem inferForm_ne_none_of_unique (w : String) (e : Entry)
    (he : entriesContaining (toLowerStr w) = [e]) :
    ¬inferForm w = none := by
  rw [inferForm_eq_of_unique w e he]
  have hmem : e ∈ entriesContaining (toLowerStr w) := he ▸ List.mem_singleton_self e
  have hfil : e ∈ pronounTable.map Prod.snd ∧
      (entryIndexOf e (toLowerStr w)).isSome = true :=
    List.mem_filter.mp
      (show e ∈ List.filter (fun x => (entryIndexOf x (toLowerStr w)).isSome)
          (pronounTable.map Prod.snd) from hmem)
  obtain ⟨i, hi⟩ := Option.isSome_iff_exists.mp hfil.2
  rw [hi]
  intro hnone
  have hle := List.get?_eq_none.mp (by simpa using hnone)
  have h5e : List.length e = 5 := pronounTable_entry_length e hfil.1
  have hlt : i < List.length e :=
    findIdx?_lt_length (by simpa [entryIndexOf] using hi)
  rw [h5e] at hlt
  simp [ENTRY_FORMATS] at hle
  omega

/-- C6 counterexample: `"her"` occupies two form-slots of the static
table combined (object and possessive-adjective of the `"she"` Entry),
yet `inferForm "her"` is not absent — the source takes only the FIRST
matching index per Entry, so it returns the object form. -/
theorem C6_counterexample :
    slotOccurrences "her" = 2 ∧ inferForm "her" = some "o" ∧
    ¬inferForm "her" = none :=
  ⟨by decide, by decide, by decide⟩

/-- C6 as amended: `inferForm` lower-cases the sample and is absent
exactly when the number of table Entries containing the sample differs
from one; when exactly one Entry contains it, the result is the form of
the first (earliest) matching slot of that Entry — even if the sample occupies
several slots of that Entry. Ambiguity is counted per Entry, not per
slot. -/
theorem C6_amended_unique_entry_first_slot (w : String) :
    (inferForm w = none ↔ (entriesContaining (toLowerStr w)).length ≠ 1) ∧
    (∀ e, entriesContaining (toLowerStr w) = [e] →
      inferForm w
        = (entryIndexOf e (toLowerStr w)).bind (fun i => ENTRY_FORMATS.get? i)) := by
  refine ⟨⟨?_, ?_⟩, ?_⟩
  · intro hnone hlen1
    obtain ⟨e, he⟩ := List.length_eq_one.mp hlen1
    exact inferForm_ne_none_of_unique w e he hnone
  · intro hlen
    simp only [inferForm]
    rw [inferForm_options_eq, List.length_map, if_neg hlen]
  · intro e he
    exact inferForm_eq_of_unique w e he

/-- Witness for the amended C6 theorem at the concrete sample `"her"`. -/
theorem C6_amended_unique_entry_first_slot_witness :
    entriesContaining (toLowerStr "her") = [sheEntry] ∧
    inferForm "her"
      = (entryIndexOf sheEntry (toLowerStr "her")).bind
          (fun i => ENTRY_FORMATS.get? i) :=
  ⟨by decide,
   (C6_amended_unique_entry_first_slot "her").2 sheEntry (by decide)⟩
